import Mathlib

/-!
Verification of the completion/suggestion concurrency subsystem of the
clink repository: the background recognizer cache, the generation-tagged
suggestion toolkit, the idle-driver timeout computation, and the popen
close bookkeeping.  Each definition is a shallow embedding of the
corresponding C++ function; OS facilities (filesystem search, registry,
environment, the Lua interpreter) appear as explicit oracle parameters.
-/

namespace Clink

/-! ## Association-map helpers

`str_unordered_map<char>` is embedded as an association list from `String`
to `Int` (the one-byte classification code).  `mapFind` is `find`,
`mapStore` is the replace-or-insert used by `recognizer::store`
(`insert_or_assign` on an existing key, `emplace` otherwise). -/

def mapFind : List (String × Int) → String → Option Int
  | [], _ => none
  | e :: m, k => if e.1 = k then some e.2 else mapFind m k

def mapAssign : List (String × Int) → String → Int → List (String × Int)
  | [], _, _ => []
  | e :: m, k, v => if e.1 = k then (e.1, v) :: mapAssign m k v else e :: mapAssign m k v

/-! ## Recognizer cache state

Embeds the fields of `class recognizer` (src/unnamed/part_002).
The `linear_allocator m_heap` is embedded as the list of strings stored in
the arena (allocation is modelled as always succeeding); the Windows event
handles are embedded as a created-flag plus a signaled-flag. -/

structure recognizer where
  m_heap : List String
  m_cache : List (String × Int)
  m_pending : List (String × Int)
  m_queue_key : String
  m_queue_word : String
  m_event : Bool
  m_event_signaled : Bool
  m_thread : Bool
  m_processing : Bool
  m_result_available : Bool
  m_zombie : Bool
  s_ready_event : Bool
  s_ready_signaled : Bool
  deriving Repr, DecidableEq

namespace recognizer

/-- `recognizer::usable`: `!m_zombie && s_ready_event`. -/
def usable (r : recognizer) : Bool :=
  !r.m_zombie && r.s_ready_event

/-- `recognizer::clear`: drops both maps and resets the bump allocator. -/
def clear (r : recognizer) : recognizer :=
  { r with m_cache := [], m_pending := [], m_heap := [] }

/-- `recognizer::find`: consults the confirmed cache first, then the
pending cache, each guarded by `usable()`; returns the classification
through the `cached` out-parameter, embedded as `Option Int`. -/
def find (r : recognizer) (key : String) : Option Int :=
  let first := if r.usable then mapFind r.m_cache key else none
  match first with
  | some c => some c
  | none => if r.usable then mapFind r.m_pending key else none

/-- `recognizer::set_result_available`: returns `available` when the flag
already has that value; otherwise flips the flag, sets/resets the ready
event, and returns `!available`. -/
def set_result_available (r : recognizer) (available : Bool) : Bool × recognizer :=
  if available = r.m_result_available then (available, r)
  else
    let r := { r with m_result_available := available }
    let r := if r.s_ready_event then { r with s_ready_signaled := available } else r
    (!available, r)

/-- `recognizer::need_refresh`: `set_result_available(false)`. -/
def need_refresh (r : recognizer) : Bool × recognizer :=
  r.set_result_available false

/-- `recognizer::store`: writes a classification into the pending or the
confirmed map.  An existing key is reassigned in place; a new key is first
copied into the arena and then emplaced.  Signals result-available. -/
def store (r : recognizer) (word : String) (cached : Int) (pending : Bool) :
    Bool × recognizer :=
  if !r.usable then (false, r)
  else
    let map := if pending then r.m_pending else r.m_cache
    match mapFind map word with
    | some _ =>
        let map := mapAssign map word cached
        let r := if pending then { r with m_pending := map } else { r with m_cache := map }
        let r := (r.set_result_available true).2
        (true, r)
    | none =>
        let r := { r with m_heap := word :: r.m_heap }
        let map := (word, cached) :: map
        let r := if pending then { r with m_pending := map } else { r with m_cache := map }
        let r := (r.set_result_available true).2
        (true, r)

/-- `recognizer::enqueue`: rejected when not usable; otherwise creates the
wake event and worker thread lazily, overwrites the single work slot with
the new (key, word) pair, records a provisional `-1` pending entry, sets
the wake event, and accepts.  The `cached` out-parameter receives `-1`. -/
def enqueue (r : recognizer) (key word : String) : Bool × recognizer :=
  if !r.usable then (false, r)
  else
    let r := { r with m_event := true, m_thread := true }
    let r := { r with m_queue_key := key, m_queue_word := word }
    let r := (r.store key (-1) true).2
    let r := { r with m_event_signaled := true }
    (true, r)

/-- `recognizer::dequeue`: fails when not usable or the slot is empty
(`entry::empty()` checks for an empty key); otherwise moves the entry out,
leaving the slot empty. -/
def dequeue (r : recognizer) : Option ((String × String) × recognizer) :=
  if !r.usable || r.m_queue_key = "" then none
  else some ((r.m_queue_key, r.m_queue_word),
             { r with m_queue_key := "", m_queue_word := "" })

/-- `recognizer::notify_ready`: optionally records result-available, then
sets the ready event unconditionally. -/
def notify_ready (r : recognizer) (available : Bool) : recognizer :=
  let r := if available then (r.set_result_available available).2 else r
  if r.s_ready_event then { r with s_ready_signaled := true } else r

/-- `recognizer::shutdown`: clears the cache, enters the zombie state,
wakes the worker, and moves the thread out to join it. -/
def shutdown (r : recognizer) : recognizer :=
  let r := r.clear
  let r := { r with m_zombie := true }
  let r := if r.m_event then { r with m_event_signaled := true } else r
  { r with m_thread := false }

/-- Outcome of the worker's lookup for one word: found on the executable
search path, extension with a registered open command, extension without
one, or no extension at all.  Abstracts `search_for_executable` plus the
registry probe, which consult the filesystem and the Windows registry. -/
inductive lookup_outcome where
  | exec
  | ext_has_command
  | ext_no_command
  | no_ext
  deriving Repr, DecidableEq

/-- One resolution step of `recognizer::proc` for a dequeued entry:
stores `1` for an executable or a registered extension, stores `-1` when
the word has no extension, and stores nothing for an extension with no
registered command. -/
def resolve_word (env : String → lookup_outcome) (r : recognizer)
    (key word : String) : recognizer :=
  match env word with
  | .exec =>
      let r := (r.store key 1 false).2
      r.notify_ready true
  | .ext_has_command =>
      let r := (r.store key 1 false).2
      r.notify_ready true
  | .ext_no_command => r
  | .no_ext =>
      let r := (r.store key (-1) false).2
      r.notify_ready true

/-- End of the worker's drain loop in `recognizer::proc`: clears the
processing flag and the pending map, and signals readiness unless the
cache is a zombie. -/
def drain_finish (r : recognizer) : recognizer :=
  let r := { r with m_processing := false, m_pending := [] }
  if !r.m_zombie then r.notify_ready false else r

/-- The inner drain loop of `recognizer::proc`, fuel-indexed: while not a
zombie and the single-slot queue is non-empty, dequeue and resolve; on
exit run `drain_finish`.  Returns the drained state together with the list
of entries the worker actually resolved, or `none` if the fuel ran out. -/
def proc_drain_fuel (env : String → lookup_outcome) :
    Nat → recognizer → Option (recognizer × List (String × String))
  | 0, _ => none
  | fuel + 1, r =>
      if r.m_zombie then some (r.drain_finish, [])
      else
        match r.dequeue with
        | none => some (r.drain_finish, [])
        | some ((k, w), r1) =>
            let r2 := resolve_word env { r1 with m_processing := true } k w
            match proc_drain_fuel env fuel r2 with
            | none => none
            | some (r3, log) => some (r3, (k, w) :: log)

/-- The drain loop with fuel 2, which is always sufficient because the
work queue is a single slot and resolution never refills it. -/
def proc_drain (env : String → lookup_outcome) (r : recognizer) :
    Option (recognizer × List (String × String)) :=
  proc_drain_fuel env 2 r

end recognizer

/-! ## Command recognition entry point (`recognize_command`, part_002)

`path::is_separator` and `intercept_directory` are not under src/;
`os::expand_env` consults the process environment.  They are passed as
explicit parameters: `intercept line` stands for
`intercept_directory(line) != intercept_result::none`, and `expand word`
is `some out` when `os::expand_env` expanded the word to `out` and `none`
when no expansion happened. -/

/-- Modelled from the spec: `path::is_separator` is not under src/; a path
separator is a backslash or a forward slash. -/
def is_separator (c : Char) : Bool :=
  c = '\\' || c = '/'

/-- `strchr(s, c) != nullptr`: the string contains the character. -/
def contains_char (s : String) (c : Char) : Bool :=
  s.data.any (fun a => a = c)

/-- `word[0]` and `word[1]` are both path separators.  For a word of
length < 2 the second read hits the terminating NUL, which is not a
separator. -/
def is_unc_word (word : String) : Bool :=
  match word.data with
  | c0 :: c1 :: _ => is_separator c0 && is_separator c1
  | _ => false

/-- `recognize_command` (src/unnamed/part_002): rejects empty arguments;
returns 0 for a UNC-shaped word; returns 1 for a directory intercept;
returns any cached classification; expands environment variables; returns
-1 for a wildcard word; otherwise enqueues (key = the original word,
word = the expanded word) and returns the provisional -1, or 0 when the
enqueue was rejected.  The `Option Int` result is the integer pushed back
to Lua (`none` = no result pushed). -/
def recognize_command (intercept : String → Bool) (expand : String → Option String)
    (line word : String) (r : recognizer) : Option Int × recognizer :=
  if line = "" || word = "" then (none, r)
  else if is_unc_word word then (some 0, r)
  else if intercept line then (some 1, r)
  else
    match r.find word with
    | some cached => (some cached, r)
    | none =>
        let expanded := (expand word).getD word
        if contains_char expanded '*' || contains_char expanded '?' then (some (-1), r)
        else
          let (ok, r) := r.enqueue word expanded
          if ok then (some (-1), r) else (some 0, r)

/-! ## The bounded end-of-line wait (`recognizer::end_line`, part_002)

The wait loop reads `GetTickCount`, computes
`timeout = int(tick_begin) + 2500 - int(tick_now)`, breaks when it is
negative, waits on the ready event for at most `timeout` milliseconds,
breaks when the wait did not report the event as signaled, reclassifies,
and breaks when processing has finished or the cache became unusable.
The environment trace supplies, per iteration `i`: the tick reading
(already cast to a signed integer as in the source), whether the bounded
wait observed the event signaled, and whether `m_processing && usable()`
still held after reclassification. -/

structure end_line_env where
  tick : Nat → Int
  signaled : Nat → Bool
  cont : Nat → Bool

/-- The wait loop of `recognizer::end_line`, fuel-indexed; returns the
list of wait timeouts actually issued (in order), or `none` when the fuel
ran out before the loop exited. -/
def end_line_loop (env : end_line_env) (tick_begin : Int) :
    Nat → Nat → Option (List Int)
  | 0, _ => none
  | fuel + 1, i =>
      let timeout := tick_begin + 2500 - env.tick i
      if timeout < 0 then some []
      else if !env.signaled i then some [timeout]
      else if !env.cont i then some [timeout]
      else
        match end_line_loop env tick_begin fuel (i + 1) with
        | none => none
        | some ts => some (timeout :: ts)

/-! ## Generation-tagged suggestion toolkit (part_001) -/

/-- The state `make_match_builder_toolkit(generation_id, end_word_offset)`
associates with a deferred request.  The constructor is not under src/;
Modelled from the spec: the toolkit carries the generation id it was
created under, observable through `get_generation_id`. -/
structure match_builder_toolkit where
  generation_id : Int
  end_word_offset : Nat
  deriving Repr, DecidableEq

/-- `make_match_builder_toolkit` (not under src/; modelled from the spec
as recording its two arguments). -/
def make_match_builder_toolkit (generation_id : Int) (end_word_offset : Nat) :
    match_builder_toolkit :=
  { generation_id := generation_id, end_word_offset := end_word_offset }

/-- `get_deferred_matches` (src/unnamed/part_001): returns the active
toolkit only when its generation id equals the argument, else null. -/
def get_deferred_matches (generation_id : Int)
    (s_toolkit : Option match_builder_toolkit) : Option match_builder_toolkit :=
  match s_toolkit with
  | some toolkit =>
      if toolkit.generation_id = generation_id then some toolkit else none
  | none => none

/-- The effect of `suggester::suggest` (src/unnamed/part_001) on
`s_toolkit` when matches are not supplied (the deferred/coroutine path):
the previous toolkit is always reset first; when the line is non-empty a
fresh toolkit tagged with the new generation id is installed. -/
def suggest_deferred (line_length : Nat) (end_word_offset : Nat)
    (generation_id : Int) (_s_toolkit : Option match_builder_toolkit) :
    Option match_builder_toolkit :=
  if line_length = 0 then none
  else some (make_match_builder_toolkit generation_id end_word_offset)

/-! ## Idle driver timeout (`lua_input_idle`, lua_input_idle.cpp)

The Lua-side queries are oracles: `hasCo` is the boolean result of the
`clink._has_coroutines` call (false also on pcall failure), and `dur` is
the `clink._wait_duration` result — `none` when the pcall failed or the
result was not a number, otherwise the numeric duration in seconds,
embedded as a rational standing in for the C double. -/

structure lua_input_idle where
  m_iterations : Nat
  m_enabled : Bool
  deriving Repr, DecidableEq

namespace lua_input_idle

/-- Windows `INFINITE`. -/
def INFINITE : Nat := 4294967295

/-- `lua_input_idle::is_enabled`: false when disabled; otherwise disables
itself when no coroutines exist, and reports the updated flag. -/
def is_enabled (hasCo : Bool) (s : lua_input_idle) : Bool × lua_input_idle :=
  if !s.m_enabled then (false, s)
  else
    let s := if !hasCo then { s with m_enabled := false } else s
    (s.m_enabled, s)

/-- `lua_input_idle::get_timeout`: counts the iteration; returns INFINITE
when not enabled, when the wait-duration query fails, or when its result
is not numeric; otherwise converts the fractional seconds to integer
milliseconds (truncation, as the C cast to unsigned of a positive double),
flooring non-positive durations at 0. -/
def get_timeout (hasCo : Bool) (dur : Option ℚ) (s : lua_input_idle) :
    Nat × lua_input_idle :=
  let s := { s with m_iterations := s.m_iterations + 1 }
  let (enabled, s) := is_enabled hasCo s
  if !enabled then (INFINITE, s)
  else
    match dur with
    | none => (INFINITE, s)
    | some sec => (if 0 < sec then (Int.floor (sec * 1000)).toNat else 0, s)

end lua_input_idle

/-! ## Popen close bookkeeping (`pclosefile`, part_000)

FILE* streams are embedded as natural-number identifiers; the intrusive
singly-linked registry rooted at `s_head` is embedded as a list in the
same order, with `popenrw_info::find` returning the first entry whose
read or write stream matches. -/

structure popenrw_info where
  r : Option Nat
  w : Option Nat
  process_handle : Int
  async : Bool
  deriving Repr, DecidableEq

namespace popenrw_info

/-- `popenrw_info::close`: closes whichever of the two sides matches the
stream and nulls it. -/
def close_stream (p : popenrw_info) (f : Nat) : popenrw_info :=
  { p with
    r := if p.r = some f then none else p.r
    w := if p.w = some f then none else p.w }

/-- `popenrw_info::get_wait_handle`: while either side is still open it
yields 0; once both are closed it takes (and zeroes) the process
handle. -/
def get_wait_handle (p : popenrw_info) : Int × popenrw_info :=
  if p.r.isSome || p.w.isSome then (0, p)
  else (p.process_handle, { p with process_handle := 0 })

/-- `popenrw_info::find` over the registry list: index of the first entry
owning the stream, walking the intrusive chain from `s_head`. -/
def find_info : List popenrw_info → Nat → Option Nat
  | [], _ => none
  | p :: reg, f =>
      if p.r = some f || p.w = some f then some 0
      else Option.map (fun i => i + 1) (find_info reg f)

end popenrw_info

/-- Result of `pclosefile`: no registry entry found (`luaL_fileresult`
with an error), a plain file-close result with no process wait, or a
process-exit result where `blocking` records whether `pclosewait` (a
blocking `_cwait`) was performed (synchronous mode) or skipped
(asynchronous relay mode). -/
inductive close_result where
  | no_info
  | file_result (ok : Bool)
  | exec_result (blocking : Bool)
  deriving Repr, DecidableEq

/-- `pclosefile` (src/unnamed/part_000): finds the stream's registry
entry, closes that side, takes the wait handle once both sides are
closed, and in that case removes the entry and waits (blocking exactly
when the pipe was not created in asynchronous mode); otherwise leaves the
updated entry registered with no wait. -/
def pclosefile (reg : List popenrw_info) (f : Nat) :
    close_result × List popenrw_info :=
  match popenrw_info.find_info reg f with
  | none => (.no_info, reg)
  | some idx =>
      match reg[idx]? with
      | none => (.no_info, reg)
      | some p =>
          let p := p.close_stream f
          let (ph, p) := p.get_wait_handle
          if ph ≠ 0 then
            (.exec_result (!p.async), reg.eraseIdx idx)
          else
            (.file_result true, reg.set idx p)

/-! ## Helper lemmas about the association-map operations -/

theorem mapFind_nil (k : String) : mapFind [] k = none := rfl

theorem mapFind_cons_self (m : List (String × Int)) (k : String) (v : Int) :
    mapFind ((k, v) :: m) k = some v := by
  simp [mapFind]

theorem mapFind_cons_ne (m : List (String × Int)) (k k' : String) (v : Int)
    (h : k' ≠ k) : mapFind ((k, v) :: m) k' = mapFind m k' := by
  simp [mapFind, Ne.symm h]

theorem mapFind_assign_self (m : List (String × Int)) (k : String) (v : Int)
    (h : (mapFind m k).isSome = true) : mapFind (mapAssign m k v) k = some v := by
  induction m with
  | nil => simp [mapFind] at h
  | cons e m ih =>
      by_cases he : e.1 = k
      · simp [mapAssign, mapFind, he]
      · simp only [mapFind, if_neg he] at h
        simpa [mapAssign, mapFind, he] using ih h

theorem mapFind_assign_ne (m : List (String × Int)) (k k' : String) (v : Int)
    (h : k' ≠ k) : mapFind (mapAssign m k v) k' = mapFind m k' := by
  induction m with
  | nil => rfl
  | cons e m ih =>
      by_cases he : e.1 = k
      · have : ¬e.1 = k' := by rw [he]; exact fun hk => h hk.symm
        simpa [mapAssign, mapFind, he, this, Ne.symm h] using ih
      · by_cases he' : e.1 = k'
        · simp [mapAssign, mapFind, he, he', h]
        · simpa [mapAssign, mapFind, he, he'] using ih

namespace recognizer

/-! ## Preservation lemmas for the recognizer transformers -/

theorem set_result_available_snd (r : recognizer) (b : Bool) :
    (r.set_result_available b).2 =
      if b = r.m_result_available then r
      else { r with m_result_available := b,
                    s_ready_signaled := if r.s_ready_event then b else r.s_ready_signaled } := by
  cases r
  simp only [set_result_available]
  split
  · rfl
  · split <;> simp_all

@[simp] theorem sra_m_cache (r : recognizer) (b : Bool) :
    ((r.set_result_available b).2).m_cache = r.m_cache := by
  rw [set_result_available_snd]; split <;> rfl

@[simp] theorem sra_m_pending (r : recognizer) (b : Bool) :
    ((r.set_result_available b).2).m_pending = r.m_pending := by
  rw [set_result_available_snd]; split <;> rfl

@[simp] theorem sra_m_queue_key (r : recognizer) (b : Bool) :
    ((r.set_result_available b).2).m_queue_key = r.m_queue_key := by
  rw [set_result_available_snd]; split <;> rfl

@[simp] theorem sra_m_queue_word (r : recognizer) (b : Bool) :
    ((r.set_result_available b).2).m_queue_word = r.m_queue_word := by
  rw [set_result_available_snd]; split <;> rfl

@[simp] theorem sra_m_zombie (r : recognizer) (b : Bool) :
    ((r.set_result_available b).2).m_zombie = r.m_zombie := by
  rw [set_result_available_snd]; split <;> rfl

@[simp] theorem sra_s_ready_event (r : recognizer) (b : Bool) :
    ((r.set_result_available b).2).s_ready_event = r.s_ready_event := by
  rw [set_result_available_snd]; split <;> rfl

@[simp] theorem sra_m_processing (r : recognizer) (b : Bool) :
    ((r.set_result_available b).2).m_processing = r.m_processing := by
  rw [set_result_available_snd]; split <;> rfl

@[simp] theorem sra_usable (r : recognizer) (b : Bool) :
    ((r.set_result_available b).2).usable = r.usable := by
  simp [usable]

@[simp] theorem notify_ready_m_cache (r : recognizer) (b : Bool) :
    (r.notify_ready b).m_cache = r.m_cache := by
  simp only [notify_ready]; split <;> split <;> simp_all

@[simp] theorem notify_ready_m_pending (r : recognizer) (b : Bool) :
    (r.notify_ready b).m_pending = r.m_pending := by
  simp only [notify_ready]; split <;> split <;> simp_all

@[simp] theorem notify_ready_m_queue_key (r : recognizer) (b : Bool) :
    (r.notify_ready b).m_queue_key = r.m_queue_key := by
  simp only [notify_ready]; split <;> split <;> simp_all

@[simp] theorem notify_ready_m_zombie (r : recognizer) (b : Bool) :
    (r.notify_ready b).m_zombie = r.m_zombie := by
  simp only [notify_ready]; split <;> split <;> simp_all

@[simp] theorem notify_ready_s_ready_event (r : recognizer) (b : Bool) :
    (r.notify_ready b).s_ready_event = r.s_ready_event := by
  simp only [notify_ready]; split <;> split <;> simp_all

@[simp] theorem notify_ready_usable (r : recognizer) (b : Bool) :
    (r.notify_ready b).usable = r.usable := by
  simp [usable]

@[simp] theorem store_m_zombie (r : recognizer) (w : String) (v : Int) (p : Bool) :
    ((r.store w v p).2).m_zombie = r.m_zombie := by
  simp only [store]
  split
  · rfl
  · split <;> split <;> simp

@[simp] theorem store_s_ready_event (r : recognizer) (w : String) (v : Int) (p : Bool) :
    ((r.store w v p).2).s_ready_event = r.s_ready_event := by
  simp only [store]
  split
  · rfl
  · split <;> split <;> simp

@[simp] theorem store_usable (r : recognizer) (w : String) (v : Int) (p : Bool) :
    ((r.store w v p).2).usable = r.usable := by
  simp [usable]

@[simp] theorem store_m_queue_key (r : recognizer) (w : String) (v : Int) (p : Bool) :
    ((r.store w v p).2).m_queue_key = r.m_queue_key := by
  simp only [store]
  split
  · rfl
  · split <;> split <;> simp

@[simp] theorem store_m_queue_word (r : recognizer) (w : String) (v : Int) (p : Bool) :
    ((r.store w v p).2).m_queue_word = r.m_queue_word := by
  simp only [store]
  split
  · rfl
  · split <;> split <;> simp

@[simp] theorem store_pending_m_cache (r : recognizer) (w : String) (v : Int) :
    ((r.store w v true).2).m_cache = r.m_cache := by
  simp only [store]
  split
  · rfl
  · split <;> simp

@[simp] theorem store_confirmed_m_pending (r : recognizer) (w : String) (v : Int) :
    ((r.store w v false).2).m_pending = r.m_pending := by
  simp only [store]
  split
  · rfl
  · split <;> simp

theorem store_confirmed_lookup_self (r : recognizer) (w : String) (v : Int)
    (hu : r.usable = true) :
    mapFind ((r.store w v false).2).m_cache w = some v := by
  simp only [store, hu, Bool.not_true]
  simp only [if_false, Bool.false_eq_true]
  cases hm : mapFind r.m_cache w with
  | some c =>
      simp only [hm]
      simpa using mapFind_assign_self r.m_cache w v (by simp [hm])
  | none =>
      simp only [hm]
      simpa using mapFind_cons_self r.m_cache w v

theorem store_confirmed_lookup_ne (r : recognizer) (w x : String) (v : Int)
    (hx : x ≠ w) :
    mapFind ((r.store w v false).2).m_cache x = mapFind r.m_cache x := by
  by_cases hu : r.usable = true
  · simp only [store, hu, Bool.not_true]
    simp only [if_false, Bool.false_eq_true]
    cases hm : mapFind r.m_cache w with
    | some c =>
        simp only [hm]
        simpa using mapFind_assign_ne r.m_cache w x v hx
    | none =>
        simp only [hm]
        simpa using mapFind_cons_ne r.m_cache w x v hx
  · have hu' : r.usable = false := by simpa using hu
    simp [store, hu']

@[simp] theorem resolve_word_m_zombie (env : String → lookup_outcome)
    (r : recognizer) (k w : String) :
    (resolve_word env r k w).m_zombie = r.m_zombie := by
  cases h : env w <;> simp [resolve_word, h]

@[simp] theorem resolve_word_s_ready_event (env : String → lookup_outcome)
    (r : recognizer) (k w : String) :
    (resolve_word env r k w).s_ready_event = r.s_ready_event := by
  cases h : env w <;> simp [resolve_word, h]

@[simp] theorem resolve_word_usable (env : String → lookup_outcome)
    (r : recognizer) (k w : String) :
    (resolve_word env r k w).usable = r.usable := by
  simp [usable]

@[simp] theorem resolve_word_m_queue_key (env : String → lookup_outcome)
    (r : recognizer) (k w : String) :
    (resolve_word env r k w).m_queue_key = r.m_queue_key := by
  cases h : env w <;> simp [resolve_word, h]

theorem resolve_word_lookup_ne (env : String → lookup_outcome)
    (r : recognizer) (k w x : String) (hx : x ≠ k) :
    mapFind (resolve_word env r k w).m_cache x = mapFind r.m_cache x := by
  cases h : env w <;>
    simp [resolve_word, h, store_confirmed_lookup_ne _ _ _ _ hx]

theorem enqueue_fst (r : recognizer) (k w : String) (hu : r.usable = true) :
    (r.enqueue k w).1 = true := by
  simp [enqueue, hu]

theorem enqueue_not_usable (r : recognizer) (k w : String) (hu : r.usable = false) :
    r.enqueue k w = (false, r) := by
  simp [enqueue, hu]

@[simp] theorem enqueue_m_cache (r : recognizer) (k w : String) :
    ((r.enqueue k w).2).m_cache = r.m_cache := by
  simp only [enqueue]
  split <;> simp

@[simp] theorem enqueue_m_zombie (r : recognizer) (k w : String) :
    ((r.enqueue k w).2).m_zombie = r.m_zombie := by
  simp only [enqueue]
  split <;> simp

@[simp] theorem enqueue_s_ready_event (r : recognizer) (k w : String) :
    ((r.enqueue k w).2).s_ready_event = r.s_ready_event := by
  simp only [enqueue]
  split <;> simp

@[simp] theorem enqueue_usable (r : recognizer) (k w : String) :
    ((r.enqueue k w).2).usable = r.usable := by
  simp [usable]

theorem enqueue_m_queue_key (r : recognizer) (k w : String) (hu : r.usable = true) :
    ((r.enqueue k w).2).m_queue_key = k := by
  simp [enqueue, hu]

theorem enqueue_m_queue_word (r : recognizer) (k w : String) (hu : r.usable = true) :
    ((r.enqueue k w).2).m_queue_word = w := by
  simp [enqueue, hu]

@[simp] theorem drain_finish_m_pending (r : recognizer) :
    (r.drain_finish).m_pending = [] := by
  simp only [drain_finish]
  split <;> simp

@[simp] theorem drain_finish_m_cache (r : recognizer) :
    (r.drain_finish).m_cache = r.m_cache := by
  simp only [drain_finish]
  split <;> simp

@[simp] theorem drain_finish_m_zombie (r : recognizer) :
    (r.drain_finish).m_zombie = r.m_zombie := by
  simp only [drain_finish]
  split <;> simp

@[simp] theorem drain_finish_s_ready_event (r : recognizer) :
    (r.drain_finish).s_ready_event = r.s_ready_event := by
  simp only [drain_finish]
  split <;> simp

@[simp] theorem drain_finish_usable (r : recognizer) :
    (r.drain_finish).usable = r.usable := by
  simp [usable]

theorem dequeue_some (r : recognizer) (hu : r.usable = true)
    (hk : r.m_queue_key ≠ "") :
    r.dequeue = some ((r.m_queue_key, r.m_queue_word),
                      { r with m_queue_key := "", m_queue_word := "" }) := by
  simp [dequeue, hu, hk]

theorem dequeue_none_of_empty (r : recognizer) (hk : r.m_queue_key = "") :
    r.dequeue = none := by
  simp [dequeue, hk]

end recognizer

theorem usable_true_iff (r : recognizer) :
    r.usable = true ↔ r.m_zombie = false ∧ r.s_ready_event = true := by
  simp [recognizer.usable]

/-- A key is observable in the confirmed map: `find` would serve it from
`m_cache`. -/
def observed_in_confirmed (r : recognizer) (k : String) : Bool :=
  r.usable && (mapFind r.m_cache k).isSome

/-- A key is observable in the pending map: `find` misses `m_cache` and
would serve it from `m_pending`. -/
def observed_in_pending (r : recognizer) (k : String) : Bool :=
  r.usable && (mapFind r.m_cache k).isNone && (mapFind r.m_pending k).isSome

/-- A recognizer state as freshly constructed: empty maps, empty slot, no
thread yet, ready event created. -/
def fresh_recognizer : recognizer :=
  { m_heap := [], m_cache := [], m_pending := [], m_queue_key := "",
    m_queue_word := "", m_event := false, m_event_signaled := false,
    m_thread := false, m_processing := false, m_result_available := false,
    m_zombie := false, s_ready_event := true, s_ready_signaled := false }

/-! ## Claim theorems -/

/-- C1: after a new suggestion request has begun under generation id g2,
querying the deferred-matches accessor with an older generation id g1 < g2
returns absent (the stale result is dropped silently), while querying with
the currently active generation id g2 returns the active toolkit. -/
theorem C1_generation_staleness (g1 g2 : Int) (off lineLen : Nat)
    (st : Option match_builder_toolkit) (hg : g1 < g2) (hl : lineLen ≠ 0) :
    get_deferred_matches g1 (suggest_deferred lineLen off g2 st) = none ∧
    get_deferred_matches g2 (suggest_deferred lineLen off g2 st) =
      some (make_match_builder_toolkit g2 off) := by
  have hne : ¬(g2 = g1) := ne_of_gt hg
  simp [suggest_deferred, get_deferred_matches, make_match_builder_toolkit, hl, hne]

/-- C1 witness at g1 = 1, g2 = 2, offset 0, line length 5. -/
theorem C1_generation_staleness_witness :
    (1 : Int) < 2 ∧ (5 : Nat) ≠ 0 ∧
    (get_deferred_matches 1 (suggest_deferred 5 0 2 none) = none ∧
     get_deferred_matches 2 (suggest_deferred 5 0 2 none) =
       some (make_match_builder_toolkit 2 0)) :=
  ⟨by decide, by decide, C1_generation_staleness 1 2 0 5 none (by decide) (by decide)⟩

/-- C5: after `clear()`, `find` returns absent for every key (whether it
had been confirmed or pending, and regardless of any in-flight worker
state, which `clear` does not touch); both maps are dropped and the bump
allocator is reset. -/
theorem C5_clear_resets (r : recognizer) (k : String) :
    (r.clear).find k = none ∧ (r.clear).m_cache = [] ∧
    (r.clear).m_pending = [] ∧ (r.clear).m_heap = [] := by
  refine ⟨?_, rfl, rfl, rfl⟩
  simp [recognizer.clear, recognizer.find, mapFind]

/-- C10: `need_refresh` has consume-flag semantics: it returns exactly the
result-available flag, clears the flag, resets the ready event when it
consumed a set flag, and an immediately repeated call returns false. -/
theorem C10_need_refresh_consumes (r : recognizer) :
    (r.need_refresh).1 = r.m_result_available ∧
    ((r.need_refresh).2).m_result_available = false ∧
    (r.m_result_available = true → r.s_ready_event = true →
        ((r.need_refresh).2).s_ready_signaled = false) ∧
    (((r.need_refresh).2).need_refresh).1 = false := by
  unfold recognizer.need_refresh
  cases hra : r.m_result_available
  · simp [recognizer.set_result_available, hra]
  · refine ⟨?_, ?_, ?_, ?_⟩
    · simp [recognizer.set_result_available, hra]
    · simp only [recognizer.set_result_available, hra]
      by_cases he : r.s_ready_event = true <;> simp [he]
    · intro _ he
      simp [recognizer.set_result_available, hra, he]
    · simp only [recognizer.set_result_available, hra]
      by_cases he : r.s_ready_event = true <;>
        simp [he, recognizer.set_result_available]

/-- C10 witness: consuming a set flag with a signaled ready event. -/
def consumed_state : recognizer :=
  { fresh_recognizer with m_result_available := true, s_ready_signaled := true }

/-- C10 witness: consuming a set flag with a signaled ready event. -/
theorem C10_need_refresh_consumes_witness :
    (consumed_state.need_refresh).1 = true ∧
    ((consumed_state.need_refresh).2).s_ready_signaled = false := by
  have h := C10_need_refresh_consumes consumed_state
  exact ⟨h.1, h.2.2.1 rfl rfl⟩

/-- C7: the idle driver's timeout is INFINITE when the driver is disabled
or no coroutines are pending, INFINITE when the script-layer duration
query fails or is non-numeric, and otherwise the queried duration in
fractional seconds converted to integer milliseconds and floored at 0 (a
non-positive duration yields 0). -/
theorem C7_idle_timeout (hasCo : Bool) (dur : Option ℚ) (s : lua_input_idle) :
    ((s.m_enabled = false ∨ hasCo = false) →
        (lua_input_idle.get_timeout hasCo dur s).1 = lua_input_idle.INFINITE) ∧
    (s.m_enabled = true → hasCo = true → dur = none →
        (lua_input_idle.get_timeout hasCo dur s).1 = lua_input_idle.INFINITE) ∧
    (∀ sec : ℚ, s.m_enabled = true → hasCo = true → dur = some sec →
        (lua_input_idle.get_timeout hasCo dur s).1 = (Int.floor (sec * 1000)).toNat) ∧
    (∀ sec : ℚ, s.m_enabled = true → hasCo = true → dur = some sec → sec ≤ 0 →
        (lua_input_idle.get_timeout hasCo dur s).1 = 0) := by
  refine ⟨?_, ?_, ?_, ?_⟩
  · rintro (h | h)
    · simp [lua_input_idle.get_timeout, lua_input_idle.is_enabled, h]
    · simp only [lua_input_idle.get_timeout, lua_input_idle.is_enabled, h]
      cases he : s.m_enabled <;> simp [he]
  · intro he hc hd
    simp [lua_input_idle.get_timeout, lua_input_idle.is_enabled, he, hc, hd]
  · intro sec he hc hd
    simp only [lua_input_idle.get_timeout, lua_input_idle.is_enabled, he, hc, hd]
    by_cases hpos : 0 < sec
    · simp [hpos]
    · have hle : sec ≤ 0 := le_of_not_lt hpos
      have hmul : sec * 1000 ≤ 0 := by nlinarith
      have hfl : Int.floor (sec * 1000) ≤ 0 := by
        simpa using Int.floor_le_floor (α := ℚ) hmul
      simp [hpos, Int.toNat_of_nonpos hfl]
  · intro sec he hc hd hle
    have hpos : ¬(0 < sec) := not_lt.mpr hle
    simp [lua_input_idle.get_timeout, lua_input_idle.is_enabled, he, hc, hd, hpos]

/-- C7 witness: enabled with coroutines and a 2.5 second duration gives
2500 ms. -/
theorem C7_idle_timeout_witness :
    (lua_input_idle.get_timeout true (some (5 / 2))
        { m_iterations := 0, m_enabled := true }).1 =
      (Int.floor ((5 / 2 : ℚ) * 1000)).toNat :=
  (C7_idle_timeout true (some (5 / 2))
      { m_iterations := 0, m_enabled := true }).2.2.1 (5 / 2) rfl rfl rfl

/-- C6: when the worker never signals the ready event, the end-of-line
wait loop issues at most one bounded wait, whose timeout never exceeds the
2500 ms budget (one loop step of fuel suffices: the wait never blocks
indefinitely); and at any iteration whose tick reading has already passed
the 2500 ms budget the loop exits immediately, issuing no wait at all. -/
theorem C6_bounded_end_line_wait (env : end_line_env) (tick_begin : Int)
    (hsig : ∀ i, env.signaled i = false)
    (hmono : ∀ i, tick_begin ≤ env.tick i) :
    (∃ ts, end_line_loop env tick_begin 1 0 = some ts ∧
        ts.length ≤ 1 ∧ ∀ t ∈ ts, 0 ≤ t ∧ t ≤ 2500) ∧
    (∀ fuel i, tick_begin + 2500 < env.tick i →
        end_line_loop env tick_begin (fuel + 1) i = some []) := by
  constructor
  · by_cases h : tick_begin + 2500 - env.tick 0 < 0
    · exact ⟨[], by simp [end_line_loop, h], by simp, by simp⟩
    · refine ⟨[tick_begin + 2500 - env.tick 0], ?_, by simp, ?_⟩
      · simp [end_line_loop, h, hsig 0]
      · intro t ht
        rw [List.mem_singleton] at ht
        subst ht
        have h0 := hmono 0
        omega
  · intro fuel i h
    have hneg : tick_begin + 2500 - env.tick i < 0 := by omega
    simp [end_line_loop, hneg]

/-- C6 witness: a trace whose worker never signals, ticks frozen at the
start tick. -/
theorem C6_bounded_end_line_wait_witness :
    ∃ ts, end_line_loop
        { tick := fun _ => 100, signaled := fun _ => false,
          cont := fun _ => true } 100 1 0 = some ts ∧
      ts.length ≤ 1 ∧ ∀ t ∈ ts, 0 ≤ t ∧ t ≤ 2500 :=
  (C6_bounded_end_line_wait
      { tick := fun _ => 100, signaled := fun _ => false, cont := fun _ => true }
      100 (fun _ => rfl) (fun _ => le_refl 100)).1

/-- Explicit form of `recognizer::shutdown` as a single record update. -/
theorem shutdown_eq (r : recognizer) :
    r.shutdown =
      { r with m_cache := [], m_pending := [], m_heap := [],
               m_zombie := true,
               m_event_signaled := if r.m_event then true else r.m_event_signaled,
               m_thread := false } := by
  cases r
  simp only [recognizer.shutdown, recognizer.clear]
  split <;> simp_all

/-- C4: shutdown is terminal: afterwards every enqueue is rejected and
every find returns absent (even for previously confirmed keys), the
zombie flag is set, the worker is woken when its wake event exists, the
thread slot has been moved out for joining, and the worker's drain loop
immediately finishes without resolving anything. -/
theorem C4_shutdown_terminal (r : recognizer) (k w : String)
    (env : String → recognizer.lookup_outcome) :
    ((r.shutdown).enqueue k w).1 = false ∧
    (r.shutdown).find k = none ∧
    (r.shutdown).m_zombie = true ∧
    (r.shutdown).m_thread = false ∧
    (r.m_event = true → (r.shutdown).m_event_signaled = true) ∧
    recognizer.proc_drain env (r.shutdown) =
      some ((r.shutdown).drain_finish, []) := by
  have hu : (r.shutdown).usable = false := by
    rw [shutdown_eq]; simp [recognizer.usable]
  refine ⟨?_, ?_, ?_, ?_, ?_, ?_⟩
  · simp [recognizer.enqueue, hu]
  · simp [recognizer.find, hu]
  · rw [shutdown_eq]
  · rw [shutdown_eq]
  · intro he
    rw [shutdown_eq]
    simp [he]
  · have hz : (r.shutdown).m_zombie = true := by rw [shutdown_eq]
    simp [recognizer.proc_drain, recognizer.proc_drain_fuel, hz]

/-- C4 witness: shutting down a cache holding one confirmed key, with the
worker wake event created. -/
def shutdown_witness_state : recognizer :=
  { fresh_recognizer with m_cache := [("git", 1)], m_event := true }

/-- C4 witness: every piece of the shutdown contract at a concrete
state. -/
theorem C4_shutdown_terminal_witness :
    ((shutdown_witness_state.shutdown).enqueue "git" "git").1 = false ∧
    (shutdown_witness_state.shutdown).find "git" = none ∧
    (shutdown_witness_state.shutdown).m_event_signaled = true := by
  have h := C4_shutdown_terminal shutdown_witness_state "git" "git"
    (fun _ => recognizer.lookup_outcome.exec)
  exact ⟨h.1, h.2.1, h.2.2.2.2.1 rfl⟩

/-- C3: lookups serve the confirmed map first and the pending map second,
so a key is observable in at most one of the two maps; in particular,
after the worker stores a confirmed classification for a key that had a
pending entry, `find` serves the confirmed value and the key — though its
stale entry physically remains in the pending map until the drain clears
it — is no longer observable in the pending map. -/
theorem C3_at_most_one_observable (r : recognizer) (k : String) (v : Int)
    (hu : r.usable = true) (hp : (mapFind r.m_pending k).isSome = true) :
    (∀ s : recognizer, ∀ k' : String,
        ¬(observed_in_confirmed s k' = true ∧ observed_in_pending s k' = true)) ∧
    (∀ s : recognizer, ∀ k' : String, ∀ c : Int, s.usable = true →
        mapFind s.m_cache k' = some c → s.find k' = some c) ∧
    (∀ s : recognizer, ∀ k' : String, s.usable = true →
        mapFind s.m_cache k' = none → s.find k' = mapFind s.m_pending k') ∧
    ((r.store k v false).2).find k = some v ∧
    (mapFind ((r.store k v false).2).m_pending k).isSome = true ∧
    observed_in_pending ((r.store k v false).2) k = false := by
  refine ⟨?_, ?_, ?_, ?_, ?_, ?_⟩
  · rintro s k' ⟨h1, h2⟩
    simp only [observed_in_confirmed, Bool.and_eq_true] at h1
    simp only [observed_in_pending, Bool.and_eq_true] at h2
    rcases h2 with ⟨⟨-, hnone⟩, -⟩
    rcases h1 with ⟨-, hsome⟩
    simp [Option.isNone_iff_eq_none.mp hnone] at hsome
  · intro s k' c hus hc
    simp [recognizer.find, hus, hc]
  · intro s k' hus hc
    simp [recognizer.find, hus, hc]
  · have hc := recognizer.store_confirmed_lookup_self r k v hu
    have hus : ((r.store k v false).2).usable = true := by
      simpa using hu
    simp [recognizer.find, hus, hc]
  · simpa using hp
  · have hc := recognizer.store_confirmed_lookup_self r k v hu
    simp [observed_in_pending, hc]

/-- C3 witness: a usable state with a pending entry for the key, confirmed
by the worker storing classification 1. -/
def pending_witness_state : recognizer :=
  { fresh_recognizer with m_pending := [("git", -1)] }

/-- C3 witness: the store-confirms-pending scenario at a concrete
state. -/
theorem C3_at_most_one_observable_witness :
    ((pending_witness_state.store "git" 1 false).2).find "git" = some 1 ∧
    observed_in_pending ((pending_witness_state.store "git" 1 false).2) "git"
      = false := by
  have h := C3_at_most_one_observable pending_witness_state "git" 1 rfl rfl
  exact ⟨h.2.2.2.1, h.2.2.2.2.2⟩

/-- A usable recognizer with a non-empty work slot drains in exactly one
resolution: the worker dequeues the single entry, resolves it, finds the
slot empty, and finishes. -/
theorem proc_drain_single (env : String → recognizer.lookup_outcome)
    (r : recognizer) (hu : r.usable = true) (hk : r.m_queue_key ≠ "") :
    recognizer.proc_drain env r =
      some ((recognizer.resolve_word env
          { r with m_queue_key := "", m_queue_word := "", m_processing := true }
          r.m_queue_key r.m_queue_word).drain_finish,
        [(r.m_queue_key, r.m_queue_word)]) := by
  have hz : r.m_zombie = false := ((usable_true_iff r).mp hu).1
  have hdq := recognizer.dequeue_some r hu hk
  simp only [recognizer.proc_drain, recognizer.proc_drain_fuel, hdq]
  simp [hz, recognizer.dequeue_none_of_empty]

/-- C2: enqueueing w1 then w2 without the worker dequeuing in between
leaves only w2 in the single work slot (last-request-wins); the drain then
resolves exactly w2, clears the pending map (dropping w1's provisional
entry), and a subsequent find(w1) returns absent rather than any
classification. -/
theorem C2_single_slot_last_request_wins (r : recognizer)
    (env : String → recognizer.lookup_outcome) (w1 w2 : String)
    (hu : r.usable = true) (hne : w1 ≠ w2) (hw2 : w2 ≠ "")
    (hc : mapFind r.m_cache w1 = none) :
    ((r.enqueue w1 w1).2).m_queue_key = w1 ∧
    (((r.enqueue w1 w1).2).enqueue w2 w2).2.m_queue_key = w2 ∧
    ∃ r3 log,
      recognizer.proc_drain env ((((r.enqueue w1 w1).2).enqueue w2 w2).2) =
        some (r3, log) ∧
      log = [(w2, w2)] ∧
      r3.m_pending = [] ∧
      r3.find w1 = none := by
  have hq1 : ((r.enqueue w1 w1).2).m_queue_key = w1 :=
    recognizer.enqueue_m_queue_key r w1 w1 hu
  set r1 := (r.enqueue w1 w1).2 with hr1
  have hu1 : r1.usable = true := by rw [hr1]; simpa using hu
  set r2 := (r1.enqueue w2 w2).2 with hr2
  have hu2 : r2.usable = true := by rw [hr2]; simpa using hu1
  have hq2 : r2.m_queue_key = w2 := by
    rw [hr2]; exact recognizer.enqueue_m_queue_key r1 w2 w2 hu1
  have hqw2 : r2.m_queue_word = w2 := by
    rw [hr2]; exact recognizer.enqueue_m_queue_word r1 w2 w2 hu1
  have hcache2 : r2.m_cache = r.m_cache := by rw [hr2, hr1]; simp
  have hmain := proc_drain_single env r2 hu2 (by rw [hq2]; exact hw2)
  rw [hq2, hqw2] at hmain
  refine ⟨hq1, hq2, _, _, hmain, rfl, by simp, ?_⟩
  have hcfin : mapFind (recognizer.resolve_word env
      { r2 with m_queue_key := "", m_queue_word := "", m_processing := true }
      w2 w2).m_cache w1 = none := by
    rw [recognizer.resolve_word_lookup_ne env _ w2 w2 w1 hne]
    simpa [hcache2] using hc
  simp [recognizer.find, hcfin, mapFind]

/-- C2 witness: a fresh cache, words "w1" then "w2", an environment in
which every word resolves as an executable. -/
theorem C2_single_slot_last_request_wins_witness :
    ((fresh_recognizer.enqueue "w1" "w1").2).m_queue_key = "w1" ∧
    (((fresh_recognizer.enqueue "w1" "w1").2).enqueue "w2" "w2").2.m_queue_key
      = "w2" ∧
    ∃ r3 log,
      recognizer.proc_drain (fun _ => recognizer.lookup_outcome.exec)
          ((((fresh_recognizer.enqueue "w1" "w1").2).enqueue "w2" "w2").2) =
        some (r3, log) ∧
      log = [("w2", "w2")] ∧
      r3.m_pending = [] ∧
      r3.find "w1" = none :=
  C2_single_slot_last_request_wins fresh_recognizer
    (fun _ => recognizer.lookup_outcome.exec) "w1" "w2"
    rfl (by decide) (by decide) rfl

/-- A reachable state in which a word whose environment-variable expansion
now contains a wildcard already has a confirmed cache entry (it was
enqueued earlier, when the variable expanded without a wildcard). -/
def c9_state : recognizer :=
  { fresh_recognizer with m_cache := [("%W%", 1)] }

/-- C9 counterexample: a call of the entry point for a word whose
environment-variable expansion contains a wildcard does consult the cache
and returns the cached classification 1, not the claimed -1. -/
theorem C9_counterexample :
    (contains_char ((some "a*").getD "%W%") '*' ||
     contains_char ((some "a*").getD "%W%") '?') = true ∧
    (recognize_command (fun _ => false) (fun _ => some "a*") "x" "%W%" c9_state).1
      = some 1 ∧
    (recognize_command (fun _ => false) (fun _ => some "a*") "x" "%W%" c9_state).1
      ≠ some (-1) := by
  refine ⟨by decide, by decide, by decide⟩

/-- C9 amended: the UNC short-circuit holds exactly as claimed (returns 0,
state untouched).  A word whose expansion contains a wildcard is never
enqueued to the worker (the state is always unchanged); it returns -1
immediately only when it additionally misses the cache and the line is not
a directory intercept — otherwise the cached classification (or the
intercept result 1) is returned instead. -/
theorem C9_amended_short_circuits (intercept : String → Bool)
    (expand : String → Option String) (line word : String) (r : recognizer)
    (hl : line ≠ "") (hw : word ≠ "") :
    (is_unc_word word = true →
        recognize_command intercept expand line word r = (some 0, r)) ∧
    ((contains_char ((expand word).getD word) '*' ||
      contains_char ((expand word).getD word) '?') = true →
        (recognize_command intercept expand line word r).2 = r) ∧
    (is_unc_word word = false → intercept line = false →
     r.find word = none →
     (contains_char ((expand word).getD word) '*' ||
      contains_char ((expand word).getD word) '?') = true →
        recognize_command intercept expand line word r = (some (-1), r)) := by
  refine ⟨?_, ?_, ?_⟩
  · intro hunc
    simp [recognize_command, hl, hw, hunc]
  · intro hwild
    by_cases hunc : is_unc_word word = true
    · simp [recognize_command, hl, hw, hunc]
    · by_cases hint : intercept line = true
      · simp [recognize_command, hl, hw, hunc, hint]
      · cases hf : r.find word with
        | some c => simp [recognize_command, hl, hw, hunc, hint, hf]
        | none => simp [recognize_command, hl, hw, hunc, hint, hf, hwild]
  · intro hunc hint hf hwild
    simp [recognize_command, hl, hw, hunc, hint, hf, hwild]

/-- C9 witness: a UNC word returns 0 untouched, and a fresh wildcard word
returns -1 untouched. -/
theorem C9_amended_short_circuits_witness :
    recognize_command (fun _ => false) (fun _ => none) "x" "\\\\srv\\share"
        fresh_recognizer = (some 0, fresh_recognizer) ∧
    recognize_command (fun _ => false) (fun _ => none) "x" "a*"
        fresh_recognizer = (some (-1), fresh_recognizer) := by
  have h1 := C9_amended_short_circuits (fun _ => false) (fun _ => none)
    "x" "\\\\srv\\share" fresh_recognizer (by decide) (by decide)
  have h2 := C9_amended_short_circuits (fun _ => false) (fun _ => none)
    "x" "a*" fresh_recognizer (by decide) (by decide)
  exact ⟨h1.1 (by decide), h2.2.2 (by decide) rfl rfl (by decide)⟩

/-- Registries whose entries do not own a stream report no association
for it (`popenrw_info::find` returns null). -/
theorem find_info_none (reg : List popenrw_info) (f : Nat)
    (h : ∀ q ∈ reg, q.r ≠ some f ∧ q.w ≠ some f) :
    popenrw_info.find_info reg f = none := by
  induction reg with
  | nil => rfl
  | cons p reg ih =>
      have hp := h p (List.mem_cons_self p reg)
      have hrest : ∀ q ∈ reg, q.r ≠ some f ∧ q.w ≠ some f :=
        fun q hq => h q (List.mem_cons_of_mem p hq)
      simp [popenrw_info.find_info, hp.1, hp.2, ih hrest]

/-- C8: closing one side of a tracked read/write pair performs no process
wait and keeps the association (with that side nulled); the close that
leaves both sides closed removes the association and triggers the process
wait exactly once — blocking for the synchronous mode, non-blocking for
the asynchronous relay mode; a further close finds no association and
cannot trigger a second wait, and the wait handle itself is zeroed when
taken. -/
theorem C8_process_wait_exactly_once (p : popenrw_info)
    (rest : List popenrw_info) (fr fw : Nat)
    (hr : p.r = some fr) (hw : p.w = some fw) (hne : fr ≠ fw)
    (hph : p.process_handle ≠ 0)
    (hrest : ∀ q ∈ rest, q.r ≠ some fw ∧ q.w ≠ some fw) :
    pclosefile (p :: rest) fr =
      (close_result.file_result true, { p with r := none } :: rest) ∧
    pclosefile ({ p with r := none } :: rest) fw =
      (close_result.exec_result (!p.async), rest) ∧
    pclosefile rest fw = (close_result.no_info, rest) ∧
    (∀ q : popenrw_info, q.r = none → q.w = none →
        ((q.get_wait_handle).2).process_handle = 0) ∧
    (∀ q : popenrw_info, ∀ g : Nat, ∀ tail : List popenrw_info,
        q.r = some g → q.w = none → q.process_handle ≠ 0 →
        pclosefile (q :: tail) g =
          (close_result.exec_result (!q.async), tail)) := by
  have hne' : ¬(fw = fr) := fun h => hne h.symm
  refine ⟨?_, ?_, ?_, ?_, ?_⟩
  · have hfw : ¬(p.w = some fr) := by rw [hw]; simp [hne']
    simp [pclosefile, popenrw_info.find_info, popenrw_info.close_stream,
          popenrw_info.get_wait_handle, hr, hw, hfw, hne']
  · simp [pclosefile, popenrw_info.find_info, popenrw_info.close_stream,
          popenrw_info.get_wait_handle, hw, hph]
  · simp [pclosefile, find_info_none rest fw hrest]
  · intro q h1 h2
    simp [popenrw_info.get_wait_handle, h1, h2]
  · intro q g tail h1 h2 h3
    simp [pclosefile, popenrw_info.find_info, popenrw_info.close_stream,
          popenrw_info.get_wait_handle, h1, h2, h3]

/-- A synchronous popen pair: read stream 10, write stream 11, process
handle 77, direct-pipe (non-async) mode. -/
def c8_pair : popenrw_info :=
  { r := some 10, w := some 11, process_handle := 77, async := false }

/-- The same association after its read side has been closed. -/
def c8_pair_read_closed : popenrw_info :=
  { r := none, w := some 11, process_handle := 77, async := false }

/-- C8 witness: closing the read side waits on nothing, closing the write
side triggers the blocking wait and removes the entry. -/
theorem C8_process_wait_exactly_once_witness :
    pclosefile [c8_pair] 10 =
      (close_result.file_result true, [c8_pair_read_closed]) ∧
    pclosefile [c8_pair_read_closed] 11 =
      (close_result.exec_result true, []) := by
  have h := C8_process_wait_exactly_once c8_pair
    [] 10 11 rfl rfl (by decide) (by decide) (by intro q hq; cases hq)
  exact ⟨h.1, h.2.1⟩

end Clink
